import Mathlib

/-!
Verification of the sequential range-read benchmarking core of `s3test.go`.

The program is a single sequential loop.  We embed it shallowly:

* `uint64` values are modelled as `Nat`.  All multiplications and divisions
  performed by the program stay below `2 ^ 64` for the file sizes the s3fs
  client can report (`fileinfo.Size()` is an `int64`), so two's-complement
  wrap-around never changes a value the claims mention and is not modelled.
* Wall-clock durations and the `float64` arithmetic of the two `Printf`
  calls are modelled over `ℚ` (exact rational arithmetic standing for the
  real-number reading of the floating-point expressions).
* The external s3fs client is modelled by a simulator (`Sim`): the results
  that `connect`, `fs.Stat`, `fs.Open`, `Seek` and `Read` would return.
  Fallible calls return `Except GoErr`.
* The `for {}` read loop of `readFrom` may diverge in Go when every `Read`
  returns 0 bytes; the embedding uses fuel, `none` standing for the loop
  still running (the function never returning).
-/

set_option maxRecDepth 4096

namespace S3test

/-- An abstract Go `error` value, identified by a code. -/
structure GoErr where
  code : Nat
deriving DecidableEq

/-- Result of one simulated `Read` call: given the index of the call inside
the current `readFrom` invocation and the length of the buffer slice
`b[curOffset:]` passed to it, either an error or the number of bytes read. -/
abbrev ReadResFn := Nat → Nat → Except GoErr Nat

/-- Simulated transport behaviour for one iteration of the main loop (one
`readFrom` call): the results of its `Open` and `Seek` calls, the results of
its `Read` calls, and the wall-clock duration `time.Since(start)` measures. -/
structure IterSim where
  openRes : Except GoErr Unit
  seekRes : Except GoErr Unit
  readRes : ReadResFn
  dur : ℚ

/-- The arguments of the progress `Printf` at line 183 of `s3test.go`:
`Read <bytes> bytes at offset <offset> in <seconds>s (<percent>%)`. -/
structure ProgressLine where
  bytes : Nat
  offset : Nat
  seconds : ℚ
  percent : ℚ
deriving DecidableEq

/-- The percent-through-file argument of the progress line, from
`float64(100*offset)/float64(totalsize)` at line 183. -/
def percentOf (offset totalsize : Nat) : ℚ :=
  100 * (offset : ℚ) / (totalsize : ℚ)

/-- How one `readFrom` invocation ends. -/
inductive RFOutcome where
  /-- Returned `nil`: the read completed. -/
  | ok
  /-- Returned a non-nil error (seek failure or a failed `Read` call). -/
  | err (e : GoErr)
  /-- `fs.Open` failed, so `f` is a nil interface; evaluating the deferred
  `f.Close()` dereferences the nil handle and the function panics instead of
  returning the open error. -/
  | nilClosePanic
  /-- The read loop never accumulated `size` bytes (fuel ran out in the
  model; the Go loop is still running and `readFrom` has not exited). -/
  | hung
deriving DecidableEq

/-- Everything observable about one `readFrom` invocation. -/
structure RFResult where
  outcome : RFOutcome
  /-- `Close` was invoked (or invocation was attempted) on the handle. -/
  closeInvoked : Bool
  /-- The handle on which `Close` ran was the nil interface from a failed
  `Open`. -/
  closeOnNil : Bool
  /-- The progress line printed on success, if any. -/
  progress : Option ProgressLine

/-- The accumulation loop of `readFrom` (lines 170-179 of `s3test.go`):
issue a `Read` into `b[curOffset:]` (a buffer of `size - curOffset` bytes),
return the error if the call failed, otherwise advance `curOffset` by the
bytes returned and stop once `curOffset >= size`.  Returns the final
`curOffset` together with the number of `Read` calls issued; `none` models
the loop still running after `fuel` iterations. -/
def readLoop (r : ReadResFn) (size : Nat) :
    Nat → Nat → Nat → Option (Except GoErr (Nat × Nat))
  | 0, _, _ => none
  | fuel + 1, callIdx, cur =>
    match r callIdx (size - cur) with
    | .error e => some (.error e)
    | .ok n =>
      if size ≤ cur + n then some (.ok (cur + n, callIdx + 1))
      else readLoop r size fuel (callIdx + 1) (cur + n)

/-- `readFrom` (lines 145-186 of `s3test.go`): open the file, register
`defer f.Close()` before checking the open error, seek to `offset`, run the
read loop, and on success print one progress line whose percent argument is
`float64(100*offset)/float64(totalsize)`.  When `Open` fails the deferred
close is evaluated on the nil handle and the open error is never returned. -/
def readFrom (it : IterSim) (offset size totalsize : Nat) (fuel : Nat) :
    RFResult :=
  match it.openRes with
  | .error _ => ⟨.nilClosePanic, true, true, none⟩
  | .ok _ =>
    match it.seekRes with
    | .error e => ⟨.err e, true, false, none⟩
    | .ok _ =>
      match readLoop it.readRes size fuel 0 0 with
      | none => ⟨.hung, false, false, none⟩
      | some (.error e) => ⟨.err e, true, false, none⟩
      | some (.ok (cur, _)) =>
        ⟨.ok, true, false, some ⟨cur, offset, it.dur, percentOf offset totalsize⟩⟩

/-- One line of the program's standard output, plus the two I/O events that
precede any output (connection setup and the `fs.Stat` metadata lookup). -/
inductive Ev where
  | connectEv
  | statEv (size : Nat)
  | progressEv (p : ProgressLine)
  | summaryEv (bytes : Nat) (seconds : ℚ) (rate : ℚ)
deriving DecidableEq

/-- How the whole program run ends. -/
inductive Outcome where
  /-- `main` reached the summary line and returned. -/
  | ok
  /-- `panic(err)`: a non-zero exit carrying the error that was returned. -/
  | fatal (e : GoErr)
  /-- Run-time panic `integer divide by zero` computing
  `filesize / readSize` with `readSize = 0`. -/
  | divByZero
  /-- Run-time nil-pointer panic from the deferred close in `readFrom`. -/
  | nilClosePanic
  /-- A read loop that never finishes (the process blocks forever). -/
  | hung
deriving DecidableEq

/-- Simulated behaviour of the external s3fs client for a whole run. -/
structure Sim where
  connectRes : Except GoErr Unit
  statRes : Except GoErr Nat
  iter : Nat → IterSim
  totalDur : ℚ

/-- The `readFrom` outcome lifted to the whole-run outcome: `main` panics
with the returned error, and the two panic modes abort the process. -/
def liftOutcome : RFOutcome → Outcome
  | .ok => .ok
  | .err e => .fatal e
  | .nilClosePanic => .nilClosePanic
  | .hung => .hung

/-- The main read loop (lines 218-224 of `s3test.go`), iterating `i` over
`[i, i + rem)`: call `readFrom` at offset `readSize*i` with size `readSize`
and `totalsize = readSize*readCount`, panic on any error, collect the
progress lines printed so far. -/
def runReads (sim : Sim) (rs count : Nat) :
    Nat → Nat → List Ev × Option Outcome
  | _, 0 => ([], none)
  | i, rem + 1 =>
    match (readFrom (sim.iter i) (rs * i) rs (rs * count) rs).outcome with
    | .ok =>
      let rest := runReads sim rs count (i + 1) rem
      (((readFrom (sim.iter i) (rs * i) rs (rs * count) rs).progress.toList.map
          Ev.progressEv) ++ rest.1, rest.2)
    | .err e => ([], some (.fatal e))
    | .nilClosePanic => ([], some .nilClosePanic)
    | .hung => ([], some .hung)

/-- The summary throughput figure of line 226 of `s3test.go`:
`float64(bytes*8)/dur.Seconds()/1000000`. -/
def mbps (bytes : Nat) (seconds : ℚ) : ℚ :=
  (bytes : ℚ) * 8 / seconds / 1000000

/-- `main` (lines 188-227 of `s3test.go`), after flag parsing and the
filename check: connect (panic on error), `fs.Stat` (panic on error),
compute `readCount = filesize / readSize` (dividing by zero when the
`--readsize` flag is 0), run the read loop, and on success print the final
summary line.  Returns the trace of I/O/output events and the outcome. -/
def mainRun (readsizeFlag : Nat) (sim : Sim) : List Ev × Outcome :=
  match sim.connectRes with
  | .error e => ([], .fatal e)
  | .ok _ =>
    match sim.statRes with
    | .error e => ([Ev.connectEv], .fatal e)
    | .ok filesize =>
      if readsizeFlag = 0 then
        ([Ev.connectEv, Ev.statEv filesize], .divByZero)
      else
        match runReads sim readsizeFlag (filesize / readsizeFlag) 0
            (filesize / readsizeFlag) with
        | (evs, some out) =>
          ([Ev.connectEv, Ev.statEv filesize] ++ evs, out)
        | (evs, none) =>
          ([Ev.connectEv, Ev.statEv filesize] ++ evs
            ++ [Ev.summaryEv (readsizeFlag * (filesize / readsizeFlag))
                  sim.totalDur
                  (mbps (readsizeFlag * (filesize / readsizeFlag))
                    sim.totalDur)],
           .ok)

/-- The read count of the plan: `readCount := filesize / readSize`
(line 211 of `s3test.go`, truncating integer division). -/
def readCountOf (fileSize readSize : Nat) : Nat := fileSize / readSize

/-- The offsets the main loop reads at: `offset := readSize*i` for
`i = 0, ..., readCount-1` (lines 218-219 of `s3test.go`). -/
def offsets (fileSize readSize : Nat) : List Nat :=
  (List.range (readCountOf fileSize readSize)).map (fun i => readSize * i)

/-- The progress line of an event, if it is one. -/
def progressOf : Ev → Option ProgressLine
  | .progressEv p => some p
  | _ => none

/-- The `(bytes, seconds, rate)` arguments of an event, if it is a summary
line. -/
def summaryOf : Ev → Option (Nat × ℚ × ℚ)
  | .summaryEv b s m => some (b, s, m)
  | _ => none

/-- The progress lines contained in an output trace, in order. -/
def progressLines (evs : List Ev) : List ProgressLine :=
  evs.filterMap progressOf

/-- The offsets of the progress lines of an output trace, in order. -/
def progressOffsets (evs : List Ev) : List Nat :=
  (progressLines evs).map (fun p => p.offset)

/-- The `(bytes, seconds, rate)` arguments of the summary lines of an
output trace (the program prints at most one). -/
def summaries (evs : List Ev) : List (Nat × ℚ × ℚ) :=
  evs.filterMap summaryOf

/-- The `io.Reader` contract for a simulated transport that always succeeds
and always makes progress: every `Read` into a non-empty buffer returns
between 1 and the buffer length bytes, with no error. -/
def ReadContract (r : ReadResFn) : Prop :=
  ∀ j len, 1 ≤ len → ∃ n, r j len = .ok n ∧ 1 ≤ n ∧ n ≤ len

/-- One iteration of the simulated transport is fault-free. -/
def iterFaultless (it : IterSim) : Prop :=
  it.openRes = .ok () ∧ it.seekRes = .ok () ∧ ReadContract it.readRes

/-- The whole simulated run is fault-free and reports file size
`filesize`. -/
def Faultless (sim : Sim) (filesize : Nat) : Prop :=
  sim.connectRes = .ok () ∧ sim.statRes = .ok filesize ∧
    ∀ i, iterFaultless (sim.iter i)

/-- A fault-free transport whose `Read` calls fill the whole buffer. -/
def simOK (fs : Nat) (d : ℚ) : Sim :=
  { connectRes := .ok ()
    statRes := .ok fs
    iter := fun _ =>
      { openRes := .ok ()
        seekRes := .ok ()
        readRes := fun _ len => .ok len
        dur := d }
    totalDur := d }

/-- A transport that returns (at most) 7 bytes per read call. -/
def sevenReader : ReadResFn := fun _ len => .ok (min 7 len)

/-- A transport iteration whose second read call fails. -/
def iterReadFail : IterSim :=
  { openRes := .ok ()
    seekRes := .ok ()
    readRes := fun j len => if j = 0 then .ok (min 7 len) else .error ⟨5⟩
    dur := 1 }

/-- A transport iteration whose open call fails. -/
def iterOpenFail : IterSim :=
  { openRes := .error ⟨7⟩
    seekRes := .ok ()
    readRes := fun _ len => .ok len
    dur := 1 }

/-- A fault-free transport whose `Read` calls return at most half the
buffer they are offered (but always at least one byte). -/
def simHalf (fs : Nat) (d : ℚ) : Sim :=
  { connectRes := .ok ()
    statRes := .ok fs
    iter := fun _ =>
      { openRes := .ok ()
        seekRes := .ok ()
        readRes := fun _ len => .ok (max 1 (len / 2))
        dur := d }
    totalDur := d }

/-- A transport that behaves like `simOK` except that its third open call
(iteration index 2) fails with error 42. -/
def simOpenFail3 (fs : Nat) : Sim :=
  { connectRes := .ok ()
    statRes := .ok fs
    iter := fun i =>
      if i = 2 then
        { openRes := .error ⟨42⟩
          seekRes := .ok ()
          readRes := fun _ len => .ok len
          dur := 1 }
      else
        { openRes := .ok ()
          seekRes := .ok ()
          readRes := fun _ len => .ok len
          dur := 1 }
    totalDur := 1 }

/-- The total byte counts reported by the summary lines of a trace. -/
def totalBytes (evs : List Ev) : List Nat :=
  (summaries evs).map (fun x => x.1)

/-- A transport that respects the `io.Reader` contract and always makes
progress drives the read loop to accumulate exactly `size` bytes, in at
most `size - cur` further calls, provided at least `size - cur` fuel. -/
theorem readLoop_complete (r : ReadResFn) (size : Nat) (hc : ReadContract r) :
    ∀ fuel callIdx cur, cur < size → size - cur ≤ fuel →
      ∃ k, 1 ≤ k ∧ k ≤ size - cur ∧
        readLoop r size fuel callIdx cur = some (.ok (size, callIdx + k)) := by
  intro fuel
  induction fuel with
  | zero => intro callIdx cur hlt hle; omega
  | succ f ih =>
    intro callIdx cur hlt hle
    obtain ⟨n, hrn, hn1, hn2⟩ := hc callIdx (size - cur) (by omega)
    by_cases hstop : size ≤ cur + n
    · refine ⟨1, le_refl 1, by omega, ?_⟩
      have hcn : cur + n = size := by omega
      simp [readLoop, hrn, hstop, hcn]
    · obtain ⟨k, hk1, hk2, hk3⟩ := ih (callIdx + 1) (cur + n) (by omega) (by omega)
      refine ⟨k + 1, by omega, by omega, ?_⟩
      simp only [readLoop, hrn, if_neg hstop, hk3, Option.some.injEq,
        Except.ok.injEq, Prod.mk.injEq]
      exact ⟨trivial, by omega⟩

/-- If the very first `Read` call fails, the loop stops at once with that
error. -/
theorem readLoop_first_error (r : ReadResFn) (size fuel callIdx cur : Nat)
    (e : GoErr) (hf : 0 < fuel) (hr : r callIdx (size - cur) = .error e) :
    readLoop r size fuel callIdx cur = some (.error e) := by
  rcases fuel with _ | f
  · omega
  · simp [readLoop, hr]

/-- A fault-free `readFrom` invocation (with fuel `size`, enough by
`readLoop_complete`) succeeds, closes the handle, and prints the progress
line with `curOffset = size` bytes and percent `100*offset/totalsize`. -/
theorem readFrom_success (it : IterSim) (offset size totalsize : Nat)
    (ho : it.openRes = .ok ()) (hs : it.seekRes = .ok ())
    (hc : ReadContract it.readRes) (hsz : 0 < size) :
    readFrom it offset size totalsize size =
      ⟨.ok, true, false, some ⟨size, offset, it.dur, percentOf offset totalsize⟩⟩ := by
  obtain ⟨k, hk1, hk2, hk⟩ :=
    readLoop_complete it.readRes size hc size 0 0 hsz (by omega)
  simp [readFrom, ho, hs, hk]

/-- A failed `Open` makes `readFrom` run the deferred `Close` on the nil
handle; the open error is never returned. -/
theorem readFrom_openFail (it : IterSim) (offset size totalsize fuel : Nat)
    (e : GoErr) (ho : it.openRes = .error e) :
    readFrom it offset size totalsize fuel = ⟨.nilClosePanic, true, true, none⟩ := by
  simp [readFrom, ho]

/-- A failed `Seek` propagates its error; the deferred close still runs on
the (non-nil) handle. -/
theorem readFrom_seekFail (it : IterSim) (offset size totalsize fuel : Nat)
    (e : GoErr) (ho : it.openRes = .ok ()) (hs : it.seekRes = .error e) :
    readFrom it offset size totalsize fuel = ⟨.err e, true, false, none⟩ := by
  simp [readFrom, ho, hs]

/-- A first `Read` call that fails propagates its error; the deferred close
still runs on the (non-nil) handle. -/
theorem readFrom_readFail_first (it : IterSim) (offset size totalsize : Nat)
    (e : GoErr) (ho : it.openRes = .ok ()) (hs : it.seekRes = .ok ())
    (hsz : 0 < size) (hr : it.readRes 0 size = .error e) :
    readFrom it offset size totalsize size = ⟨.err e, true, false, none⟩ := by
  have h0 : it.readRes 0 (size - 0) = .error e := by simpa using hr
  have hl := readLoop_first_error it.readRes size size 0 0 e hsz h0
  simp [readFrom, ho, hs, hl]

/-- The progress line printed by a fault-free iteration `i` of the main
loop. -/
def progressAt (sim : Sim) (rs count i : Nat) : ProgressLine :=
  ⟨rs, rs * i, (sim.iter i).dur, percentOf (rs * i) (rs * count)⟩

/-- The progress events printed by fault-free iterations `i, ..., i+rem-1`
of the main loop. -/
def okEvents (sim : Sim) (rs count : Nat) : Nat → Nat → List Ev
  | _, 0 => []
  | i, rem + 1 =>
    Ev.progressEv (progressAt sim rs count i) :: okEvents sim rs count (i + 1) rem

/-- Shifting the start of a `List.range`-indexed map by one. -/
theorem map_range_succ_shift {α : Type} (P : Nat → α) (m i : Nat) :
    (List.range (m + 1)).map (fun t => P (i + t))
      = P i :: (List.range m).map (fun t => P (i + 1 + t)) := by
  rw [List.range_succ_eq_map, List.map_cons, List.map_map]
  congr 1
  apply List.map_congr_left
  intro t ht
  simp only [Function.comp_apply]
  exact congrArg P (by omega)

/-- `okEvents` as a map over `List.range`. -/
theorem okEvents_eq (sim : Sim) (rs count : Nat) :
    ∀ rem i, okEvents sim rs count i rem =
      (List.range rem).map (fun t => Ev.progressEv (progressAt sim rs count (i + t))) := by
  intro rem
  induction rem with
  | zero => intro i; rfl
  | succ m ih =>
    intro i
    rw [okEvents, ih (i + 1)]
    exact (map_range_succ_shift
      (fun a => Ev.progressEv (progressAt sim rs count a)) m i).symm

/-- `okEvents` starting at iteration 0. -/
theorem okEvents_zero (sim : Sim) (rs count rem : Nat) :
    okEvents sim rs count 0 rem =
      (List.range rem).map (fun t => Ev.progressEv (progressAt sim rs count t)) := by
  rw [okEvents_eq]
  simp only [Nat.zero_add]

/-- Fault-free iterations of the main loop print one progress line per
offset and finish without error. -/
theorem runReads_ok (sim : Sim) (rs count : Nat) (hr : 0 < rs) :
    ∀ rem i, (∀ j, i ≤ j → j < i + rem → iterFaultless (sim.iter j)) →
      runReads sim rs count i rem = (okEvents sim rs count i rem, none) := by
  intro rem
  induction rem with
  | zero => intro i h; rfl
  | succ m ih =>
    intro i h
    obtain ⟨ho, hs, hc⟩ := h i (le_refl i) (by omega)
    have hrf := readFrom_success (sim.iter i) (rs * i) rs (rs * count) ho hs hc hr
    have hih := ih (i + 1) (fun j h1 h2 => h j (by omega) (by omega))
    rw [runReads, hrf, hih, okEvents]
    rfl

/-- If every iteration before `k` is fault-free and the `readFrom` of
iteration `k` ends with outcome `o ≠ ok`, the main loop prints the progress
lines of the iterations before `k` and then aborts with `o` lifted to the
process outcome; no further event is produced. -/
theorem runReads_fail (sim : Sim) (rs count : Nat) (hr : 0 < rs)
    (o : RFOutcome) (ho : o ≠ RFOutcome.ok) :
    ∀ rem i k, i ≤ k → k < i + rem →
      (∀ j, i ≤ j → j < k → iterFaultless (sim.iter j)) →
      (readFrom (sim.iter k) (rs * k) rs (rs * count) rs).outcome = o →
      runReads sim rs count i rem =
        (okEvents sim rs count i (k - i), some (liftOutcome o)) := by
  intro rem
  induction rem with
  | zero => intro i k h1 h2 hfl hout; omega
  | succ m ih =>
    intro i k h1 h2 hfl hout
    rcases Nat.eq_or_lt_of_le h1 with heq | hlt
    · subst heq
      rw [runReads, hout]
      rcases o with _ | e | _ | _
      · exact absurd rfl ho
      · simp [Nat.sub_self, okEvents, liftOutcome]
      · simp [Nat.sub_self, okEvents, liftOutcome]
      · simp [Nat.sub_self, okEvents, liftOutcome]
    · obtain ⟨hoo, hss, hcc⟩ := hfl i (le_refl i) hlt
      have hrf := readFrom_success (sim.iter i) (rs * i) rs (rs * count) hoo hss hcc hr
      have hih := ih (i + 1) k hlt (by omega) (fun j hj1 hj2 => hfl j (by omega) hj2) hout
      have hki : k - i = (k - (i + 1)) + 1 := by omega
      rw [runReads, hrf, hih, hki, okEvents]
      rfl

/-- A fault-free run prints, in order: one progress line per planned offset
`rs*i` (with `curOffset = rs` bytes and percent `100*(rs*i)/(rs*readCount)`)
and one final summary line for `rs*readCount` bytes, then exits normally. -/
theorem mainRun_success (sim : Sim) (fs rs : Nat) (hf : Faultless sim fs)
    (hr : 0 < rs) :
    mainRun rs sim =
      (Ev.connectEv :: Ev.statEv fs ::
        (okEvents sim rs (fs / rs) 0 (fs / rs)
          ++ [Ev.summaryEv (rs * (fs / rs)) sim.totalDur
                (mbps (rs * (fs / rs)) sim.totalDur)]),
       Outcome.ok) := by
  obtain ⟨hcon, hst, hit⟩ := hf
  have hrr := runReads_ok sim rs (fs / rs) hr (fs / rs) 0 (fun j h1 h2 => hit j)
  rw [mainRun, hcon, hst]
  simp [Nat.pos_iff_ne_zero.mp hr, hrr]

/-- If every iteration before `k` is fault-free and the `readFrom` of
iteration `k` (with `k` inside the plan) ends with outcome `o ≠ ok`, the
run prints the progress lines of the first `k` iterations and aborts with
`o` lifted to the process outcome: no summary line is printed. -/
theorem mainRun_fail (sim : Sim) (fs rs k : Nat) (o : RFOutcome)
    (ho : o ≠ RFOutcome.ok) (hcon : sim.connectRes = .ok ())
    (hst : sim.statRes = .ok fs) (hr : 0 < rs) (hk : k < fs / rs)
    (hbefore : ∀ j, j < k → iterFaultless (sim.iter j))
    (hout : (readFrom (sim.iter k) (rs * k) rs (rs * (fs / rs)) rs).outcome = o) :
    mainRun rs sim =
      (Ev.connectEv :: Ev.statEv fs :: okEvents sim rs (fs / rs) 0 k,
       liftOutcome o) := by
  have hrr := runReads_fail sim rs (fs / rs) hr o ho (fs / rs) 0 k
    (Nat.zero_le k) (by omega) (fun j h1 h2 => hbefore j h2) hout
  rw [mainRun, hcon, hst]
  simp only [Nat.sub_zero] at hrr
  simp [Nat.pos_iff_ne_zero.mp hr, hrr]

/-- `okEvents` contains only progress events; extracting them recovers the
per-iteration progress lines. -/
theorem progressLines_okEvents (sim : Sim) (rs count : Nat) :
    ∀ rem i, progressLines (okEvents sim rs count i rem)
      = (List.range rem).map (fun t => progressAt sim rs count (i + t)) := by
  intro rem
  induction rem with
  | zero => intro i; rfl
  | succ m ih =>
    intro i
    have hcons : progressLines (okEvents sim rs count i (m + 1))
        = progressAt sim rs count i :: progressLines (okEvents sim rs count (i + 1) m) := by
      simp [okEvents, progressLines, List.filterMap_cons, progressOf]
    rw [hcons, ih (i + 1)]
    exact (map_range_succ_shift (fun a => progressAt sim rs count a) m i).symm

/-- `filterMap` distributes over `++`; specialised to `summaries`. -/
theorem summaries_append (l1 l2 : List Ev) :
    summaries (l1 ++ l2) = summaries l1 ++ summaries l2 :=
  List.filterMap_append l1 l2 summaryOf

/-- `filterMap` distributes over `++`; specialised to `progressLines`. -/
theorem progressLines_append (l1 l2 : List Ev) :
    progressLines (l1 ++ l2) = progressLines l1 ++ progressLines l2 :=
  List.filterMap_append l1 l2 progressOf

/-- `okEvents` contains no summary event. -/
theorem summaries_okEvents (sim : Sim) (rs count : Nat) :
    ∀ rem i, summaries (okEvents sim rs count i rem) = [] := by
  intro rem
  induction rem with
  | zero => intro i; rfl
  | succ m ih =>
    intro i
    rw [okEvents]
    exact ih (i + 1)

/-- The progress lines of a fault-free run: one per planned offset. -/
theorem progressLines_mainRun (sim : Sim) (fs rs : Nat) (hf : Faultless sim fs)
    (hr : 0 < rs) :
    progressLines (mainRun rs sim).1
      = (List.range (fs / rs)).map (fun i => progressAt sim rs (fs / rs) i) := by
  rw [mainRun_success sim fs rs hf hr]
  show progressLines
      (okEvents sim rs (fs / rs) 0 (fs / rs)
        ++ [Ev.summaryEv (rs * (fs / rs)) sim.totalDur
              (mbps (rs * (fs / rs)) sim.totalDur)]) = _
  rw [progressLines_append, progressLines_okEvents]
  have h2 : progressLines
      [Ev.summaryEv (rs * (fs / rs)) sim.totalDur
        (mbps (rs * (fs / rs)) sim.totalDur)] = [] := rfl
  rw [h2, List.append_nil]
  simp only [Nat.zero_add]

/-- The summary of a fault-free run: exactly one line, reporting
`rs * readCount` bytes, the whole-loop duration, and the throughput
`mbps`. -/
theorem summaries_mainRun (sim : Sim) (fs rs : Nat) (hf : Faultless sim fs)
    (hr : 0 < rs) :
    summaries (mainRun rs sim).1
      = [(rs * (fs / rs), sim.totalDur, mbps (rs * (fs / rs)) sim.totalDur)] := by
  rw [mainRun_success sim fs rs hf hr]
  show summaries
      (okEvents sim rs (fs / rs) 0 (fs / rs)
        ++ [Ev.summaryEv (rs * (fs / rs)) sim.totalDur
              (mbps (rs * (fs / rs)) sim.totalDur)]) = _
  rw [summaries_append, summaries_okEvents sim rs (fs / rs) (fs / rs) 0]
  rfl

/-- The trace of a failed run contains no summary event. -/
theorem summaries_mainRun_fail (sim : Sim) (fs rs k : Nat) (o : RFOutcome)
    (ho : o ≠ RFOutcome.ok) (hcon : sim.connectRes = .ok ())
    (hst : sim.statRes = .ok fs) (hr : 0 < rs) (hk : k < fs / rs)
    (hbefore : ∀ j, j < k → iterFaultless (sim.iter j))
    (hout : (readFrom (sim.iter k) (rs * k) rs (rs * (fs / rs)) rs).outcome = o) :
    summaries (mainRun rs sim).1 = []
    ∧ (mainRun rs sim).2 = liftOutcome o := by
  rw [mainRun_fail sim fs rs k o ho hcon hst hr hk hbefore hout]
  exact ⟨summaries_okEvents sim rs (fs / rs) k 0, rfl⟩

/-- `simOK` is fault-free. -/
theorem faultless_simOK (fs : Nat) (d : ℚ) : Faultless (simOK fs d) fs := by
  refine ⟨rfl, rfl, fun i => ⟨rfl, rfl, fun j len hl => ⟨len, rfl, hl, le_refl len⟩⟩⟩

/-- `simHalf` is fault-free. -/
theorem faultless_simHalf (fs : Nat) (d : ℚ) : Faultless (simHalf fs d) fs := by
  refine ⟨rfl, rfl, fun i =>
    ⟨rfl, rfl, fun j len hl => ⟨max 1 (len / 2), rfl, by omega, by omega⟩⟩⟩

/-- Claim C1: for every fileSize and every readSize > 0, the read plan has
exactly `floor(fileSize/readSize)` offsets, the i-th offset is `readSize*i`
(so the plan starts at 0 and is spaced by `readSize`), the offsets are
strictly increasing, and every offset `o` satisfies `o + readSize ≤
fileSize` (the trailing `fileSize mod readSize` bytes are excluded). -/
theorem readPlan_correct (fs rs : Nat) (hr : 0 < rs) :
    (offsets fs rs).length = fs / rs
    ∧ (∀ i, ∀ h : i < (offsets fs rs).length, (offsets fs rs).get ⟨i, h⟩ = rs * i)
    ∧ List.Pairwise (fun a b => a < b) (offsets fs rs)
    ∧ (∀ o ∈ offsets fs rs, o + rs ≤ fs) := by
  refine ⟨by simp [offsets, readCountOf], ?_, ?_, ?_⟩
  · intro i h
    simp [offsets, readCountOf]
  · rw [offsets, List.pairwise_map]
    exact (List.pairwise_lt_range _).imp (fun hab =>
      mul_lt_mul_of_pos_left hab hr)
  · intro o hm
    rw [offsets] at hm
    obtain ⟨i, hi, rfl⟩ := List.mem_map.mp hm
    have hi1 : i + 1 ≤ fs / rs := List.mem_range.mp hi
    calc rs * i + rs = rs * (i + 1) := by ring
    _ ≤ rs * (fs / rs) := Nat.mul_le_mul_left rs hi1
    _ ≤ fs := Nat.mul_div_le fs rs

/-- Witness for C1 at `fileSize = 10`, `readSize = 3`: the plan is
`[0, 3, 6]`. -/
theorem readPlan_correct_witness :
    (offsets 10 3).length = 10 / 3
    ∧ (∀ i, ∀ h : i < (offsets 10 3).length, (offsets 10 3).get ⟨i, h⟩ = 3 * i)
    ∧ List.Pairwise (fun a b => a < b) (offsets 10 3)
    ∧ (∀ o ∈ offsets 10 3, o + 3 ≤ 10) :=
  readPlan_correct 10 3 (by decide)

/-- Claim C2: for every requested `size > 0` and every transport that
returns an arbitrary positive number of bytes per read call without error
(at most the buffer it is given, as `io.Reader` requires), the read loop
issues `k ≥ 1` read calls and stops having accumulated exactly `size`
bytes — never more. -/
theorem readLoop_reads_exactly (r : ReadResFn) (size : Nat)
    (hc : ReadContract r) (hsz : 0 < size) :
    ∃ k, 1 ≤ k ∧ k ≤ size ∧
      readLoop r size size 0 0 = some (.ok (size, k)) := by
  obtain ⟨k, h1, h2, h3⟩ := readLoop_complete r size hc size 0 0 hsz (by omega)
  exact ⟨k, h1, by omega, by simpa using h3⟩

/-- Witness for C2: reading 100 bytes from `sevenReader` takes 15 calls and
accumulates exactly 100 bytes. -/
theorem readLoop_reads_exactly_witness :
    ReadContract sevenReader ∧ 0 < 100
    ∧ (∃ k, 1 ≤ k ∧ k ≤ 100 ∧
        readLoop sevenReader 100 100 0 0 = some (.ok (100, k))) :=
  ⟨fun j len hl => ⟨min 7 len, rfl, by omega, by omega⟩, by decide,
   readLoop_reads_exactly sevenReader 100
     (fun j len hl => ⟨min 7 len, rfl, by omega, by omega⟩) (by decide)⟩

/-- Claim C4: whenever `Open` succeeded and `readFrom` exits (in
particular when a seek or read call fails partway through and the error
propagates), the deferred `Close` runs on the (non-nil) handle. -/
theorem readFrom_closes (it : IterSim) (offset size totalsize fuel : Nat)
    (ho : it.openRes = Except.ok ())
    (hnh : (readFrom it offset size totalsize fuel).outcome ≠ RFOutcome.hung) :
    (readFrom it offset size totalsize fuel).closeInvoked = true
    ∧ (readFrom it offset size totalsize fuel).closeOnNil = false := by
  rcases hs : it.seekRes with e | u
  · rw [readFrom_seekFail it offset size totalsize fuel e ho hs]
    exact ⟨rfl, rfl⟩
  · cases u
    rcases hl : readLoop it.readRes size fuel 0 0 with _ | er
    · exfalso
      apply hnh
      show (readFrom it offset size totalsize fuel).outcome = _
      unfold readFrom
      rw [ho, hs, hl]
    · rcases er with e | cp
      · have heq : readFrom it offset size totalsize fuel
            = ⟨.err e, true, false, none⟩ := by
          unfold readFrom
          rw [ho, hs, hl]
        rw [heq]
        exact ⟨rfl, rfl⟩
      · rcases cp with ⟨c, k⟩
        have heq : readFrom it offset size totalsize fuel
            = ⟨.ok, true, false,
                some ⟨c, offset, it.dur, percentOf offset totalsize⟩⟩ := by
          unfold readFrom
          rw [ho, hs, hl]
        rw [heq]
        exact ⟨rfl, rfl⟩

/-- Witness for C4: on `iterReadFail` the read loop fails at its second
call, the error propagates, and the close still ran on the real handle. -/
theorem readFrom_closes_witness :
    iterReadFail.openRes = Except.ok ()
    ∧ (readFrom iterReadFail 0 100 100 100).outcome = RFOutcome.err ⟨5⟩
    ∧ ((readFrom iterReadFail 0 100 100 100).closeInvoked = true
       ∧ (readFrom iterReadFail 0 100 100 100).closeOnNil = false) :=
  ⟨rfl, rfl,
   readFrom_closes iterReadFail 0 100 100 100 rfl (fun h => by
     rw [show (readFrom iterReadFail 0 100 100 100).outcome
           = RFOutcome.err ⟨5⟩ from rfl] at h
     cases h)⟩

/-- Claim C10: whenever `Open` itself fails, the deferred close — registered
before the open error is checked — is still invoked, on the nil handle, and
`readFrom` does not propagate the open error (it panics instead of
returning it). -/
theorem openFail_close_on_nil (it : IterSim) (offset size totalsize fuel : Nat)
    (e : GoErr) (ho : it.openRes = .error e) :
    (readFrom it offset size totalsize fuel).closeInvoked = true
    ∧ (readFrom it offset size totalsize fuel).closeOnNil = true
    ∧ (readFrom it offset size totalsize fuel).outcome = RFOutcome.nilClosePanic := by
  rw [readFrom_openFail it offset size totalsize fuel e ho]
  exact ⟨rfl, rfl, rfl⟩

/-- Witness for C10 at `iterOpenFail`. -/
theorem openFail_close_on_nil_witness :
    iterOpenFail.openRes = Except.error ⟨7⟩
    ∧ ((readFrom iterOpenFail 0 5 5 5).closeInvoked = true
       ∧ (readFrom iterOpenFail 0 5 5 5).closeOnNil = true
       ∧ (readFrom iterOpenFail 0 5 5 5).outcome = RFOutcome.nilClosePanic) :=
  ⟨rfl, openFail_close_on_nil iterOpenFail 0 5 5 5 ⟨7⟩ rfl⟩

/-- Counterexample to claim C3: with `--readsize 0` against a healthy
transport the run performs connection setup and the `fs.Stat` metadata
lookup (both present in the trace) before it fails, and the failure is the
`integer divide by zero` run-time panic computing `readCount`, not a
checked configuration error before any I/O. -/
theorem zeroReadSize_io_before_failure :
    (mainRun 0 (simOK 10 1)).1 = [Ev.connectEv, Ev.statEv 10]
    ∧ Ev.connectEv ∈ (mainRun 0 (simOK 10 1)).1
    ∧ Ev.statEv 10 ∈ (mainRun 0 (simOK 10 1)).1
    ∧ (mainRun 0 (simOK 10 1)).2 = Outcome.divByZero := by
  refine ⟨rfl, ?_, ?_, rfl⟩
  · show Ev.connectEv ∈ [Ev.connectEv, Ev.statEv 10]
    simp
  · show Ev.statEv 10 ∈ [Ev.connectEv, Ev.statEv 10]
    simp

/-- Claim C3 amended: a configured readSize of 0 makes the run panic with
an integer division by zero when `readCount` is computed — after connection
setup and the metadata lookup but before any read is attempted (no progress
event, no summary). -/
theorem zeroReadSize_divByZero (sim : Sim) (fs : Nat)
    (hcon : sim.connectRes = .ok ()) (hst : sim.statRes = .ok fs) :
    mainRun 0 sim = ([Ev.connectEv, Ev.statEv fs], Outcome.divByZero) := by
  rw [mainRun, hcon, hst]
  rfl

/-- Witness for the amended C3 at `simOK 10 1`. -/
theorem zeroReadSize_divByZero_witness :
    mainRun 0 (simOK 10 1) = ([Ev.connectEv, Ev.statEv 10], Outcome.divByZero) :=
  zeroReadSize_divByZero (simOK 10 1) 10 rfl rfl

/-- Claim C5, evaluated at the failing input: fileSize 10, readSize 3
(plan `[0, 3, 6]`), third open call fails with error 42.  The run aborts
with a non-zero exit and prints no summary — but the outcome is the
nil-handle close panic, not `panic(err)` carrying the open error: the
error does not propagate to the caller. -/
theorem thirdOpenFail_no_summary_error_lost :
    (mainRun 3 (simOpenFail3 10)).2 = Outcome.nilClosePanic
    ∧ (mainRun 3 (simOpenFail3 10)).2 ≠ Outcome.fatal ⟨42⟩
    ∧ (mainRun 3 (simOpenFail3 10)).2 ≠ Outcome.ok
    ∧ summaries (mainRun 3 (simOpenFail3 10)).1 = []
    ∧ progressOffsets (mainRun 3 (simOpenFail3 10)).1 = [0, 3] := by
  refine ⟨rfl, by decide, by decide, rfl, rfl⟩

/-- Claim C6: the summary line of a fault-free run reports exactly
`totalBytes * 8 / totalElapsedSeconds / 1000000` megabits per second for
the planned total `readSize * readCount` bytes; with fileSize 40000000,
readSize 256000 (so readCount 156) and a 1-second loop this is 319.488. -/
theorem summary_throughput (sim : Sim) (fs rs : Nat)
    (hf : Faultless sim fs) (hr : 0 < rs) :
    summaries (mainRun rs sim).1
      = [(rs * (fs / rs), sim.totalDur,
          ((rs * (fs / rs) : Nat) : ℚ) * 8 / sim.totalDur / 1000000)]
    ∧ (fs = 40000000 → rs = 256000 → sim.totalDur = 1 →
        summaries (mainRun rs sim).1 = [(39936000, 1, 319488 / 1000)]) := by
  have h1 := summaries_mainRun sim fs rs hf hr
  constructor
  · rw [h1]
    rfl
  · intro h2 h3 h4
    subst h2
    subst h3
    rw [h1, h4]
    norm_num [mbps]

/-- Witness for C6 at `simOK 40000000 1` with readSize 256000. -/
theorem summary_throughput_witness :
    summaries (mainRun 256000 (simOK 40000000 1)).1
      = [(39936000, 1, 319488 / 1000)] :=
  (summary_throughput (simOK 40000000 1) 40000000 256000
    (faultless_simOK 40000000 1) (by norm_num)).2 rfl rfl rfl

/-- Claim C7: a fault-free run prints exactly one progress line per
successful read, in order, carrying the bytes read (`readSize`), the
offset `readSize*i`, the measured elapsed seconds, and the percent
`100 * offset / (readSize * readCount)` (the planned total). -/
theorem progress_lines_form (sim : Sim) (fs rs : Nat)
    (hf : Faultless sim fs) (hr : 0 < rs) :
    progressLines (mainRun rs sim).1
      = (List.range (fs / rs)).map (fun i =>
          (⟨rs, rs * i, (sim.iter i).dur,
            percentOf (rs * i) (rs * (fs / rs))⟩ : ProgressLine)) :=
  progressLines_mainRun sim fs rs hf hr

/-- Witness for C7 at `simOK 10 1` with readSize 3. -/
theorem progress_lines_form_witness :
    progressLines (mainRun 3 (simOK 10 1)).1
      = (List.range (10 / 3)).map (fun i =>
          (⟨3, 3 * i, ((simOK 10 1).iter i).dur,
            percentOf (3 * i) (3 * (10 / 3))⟩ : ProgressLine)) :=
  progress_lines_form (simOK 10 1) 10 3 (faultless_simOK 10 1) (by norm_num)

/-- Counterexample to claim C8: with fileSize 10 and readSize 3 the second
progress line has offset 3 and percent `100*3/9 = 100/3` (offset over the
planned total `readSize*readCount = 9`), while offset over the file size
would be `100*3/10 = 30`. -/
theorem percent_not_fileSize_fraction :
    ¬ (∀ p ∈ progressLines (mainRun 3 (simOK 10 1)).1,
        p.percent = 100 * (p.offset : ℚ) / ((10 : Nat) : ℚ)) := by
  intro h
  have hl := progressLines_mainRun (simOK 10 1) 10 3
    (faultless_simOK 10 1) (by norm_num)
  have hmem : progressAt (simOK 10 1) 3 (10 / 3) 1
      ∈ progressLines (mainRun 3 (simOK 10 1)).1 := by
    rw [hl]
    exact List.mem_map.mpr ⟨1, by simp, rfl⟩
  have hp := h _ hmem
  rw [show progressAt (simOK 10 1) 3 (10 / 3) 1
        = (⟨3, 3, 1, percentOf 3 9⟩ : ProgressLine) from rfl] at hp
  norm_num [percentOf] at hp

/-- Claim C8 amended: the fraction used to format every progress line is
offset over the planned total `readSize * readCount` — which coincides
with offset over the file size exactly when readSize divides fileSize. -/
theorem percent_planned_fraction (sim : Sim) (fs rs : Nat)
    (hf : Faultless sim fs) (hr : 0 < rs) :
    ((progressLines (mainRun rs sim).1).map (fun p => p.percent)
      = (List.range (fs / rs)).map (fun i =>
          100 * ((rs * i : Nat) : ℚ) / ((rs * (fs / rs) : Nat) : ℚ)))
    ∧ (fs % rs = 0 →
        (progressLines (mainRun rs sim).1).map (fun p => p.percent)
          = (List.range (fs / rs)).map (fun i =>
              100 * ((rs * i : Nat) : ℚ) / (fs : ℚ))) := by
  have hl := progressLines_mainRun sim fs rs hf hr
  have hmain : (progressLines (mainRun rs sim).1).map (fun p => p.percent)
      = (List.range (fs / rs)).map (fun i =>
          percentOf (rs * i) (rs * (fs / rs))) := by
    rw [hl, List.map_map]
    rfl
  constructor
  · rw [hmain]
    rfl
  · intro hdvd
    have hfsrs : rs * (fs / rs) = fs :=
      Nat.mul_div_cancel' (Nat.dvd_of_mod_eq_zero hdvd)
    rw [hmain, hfsrs]
    rfl

/-- Witness for the amended C8 at fileSize 12, readSize 3 (divisible). -/
theorem percent_planned_fraction_witness :
    (12 % 3 = 0)
    ∧ ((progressLines (mainRun 3 (simOK 12 1)).1).map (fun p => p.percent)
        = (List.range (12 / 3)).map (fun i =>
            100 * ((3 * i : Nat) : ℚ) / ((3 * (12 / 3) : Nat) : ℚ)))
    ∧ ((progressLines (mainRun 3 (simOK 12 1)).1).map (fun p => p.percent)
        = (List.range (12 / 3)).map (fun i =>
            100 * ((3 * i : Nat) : ℚ) / ((12 : Nat) : ℚ))) := by
  have h := percent_planned_fraction (simOK 12 1) 12 3
    (faultless_simOK 12 1) (by norm_num)
  exact ⟨rfl, h.1, h.2 rfl⟩

/-- Claim C9: any two fault-free runs with the same (fileSize, readSize)
produce the same offset sequence — the plan `offsets fs rs` — and the same
total byte count `readSize * readCount`. -/
theorem runs_deterministic (fs rs : Nat) (sim1 sim2 : Sim)
    (h1 : Faultless sim1 fs) (h2 : Faultless sim2 fs) (hr : 0 < rs) :
    progressOffsets (mainRun rs sim1).1 = progressOffsets (mainRun rs sim2).1
    ∧ totalBytes (mainRun rs sim1).1 = totalBytes (mainRun rs sim2).1
    ∧ progressOffsets (mainRun rs sim1).1 = offsets fs rs
    ∧ totalBytes (mainRun rs sim1).1 = [rs * (fs / rs)] := by
  have e1 : progressOffsets (mainRun rs sim1).1 = offsets fs rs := by
    rw [progressOffsets, progressLines_mainRun sim1 fs rs h1 hr,
      List.map_map, offsets]
    rfl
  have e2 : progressOffsets (mainRun rs sim2).1 = offsets fs rs := by
    rw [progressOffsets, progressLines_mainRun sim2 fs rs h2 hr,
      List.map_map, offsets]
    rfl
  have t1 : totalBytes (mainRun rs sim1).1 = [rs * (fs / rs)] := by
    rw [totalBytes, summaries_mainRun sim1 fs rs h1 hr]
    rfl
  have t2 : totalBytes (mainRun rs sim2).1 = [rs * (fs / rs)] := by
    rw [totalBytes, summaries_mainRun sim2 fs rs h2 hr]
    rfl
  exact ⟨e1.trans e2.symm, t1.trans t2.symm, e1, t1⟩

/-- Witness for C9: two different fault-free transports (full-buffer reads
with 1s durations vs half-buffer reads with 2s durations) at fileSize 10,
readSize 3. -/
theorem runs_deterministic_witness :
    progressOffsets (mainRun 3 (simOK 10 1)).1
      = progressOffsets (mainRun 3 (simHalf 10 2)).1
    ∧ totalBytes (mainRun 3 (simOK 10 1)).1
      = totalBytes (mainRun 3 (simHalf 10 2)).1
    ∧ progressOffsets (mainRun 3 (simOK 10 1)).1 = offsets 10 3
    ∧ totalBytes (mainRun 3 (simOK 10 1)).1 = [3 * (10 / 3)] :=
  runs_deterministic 10 3 (simOK 10 1) (simHalf 10 2) (faultless_simOK 10 1)
    (faultless_simHalf 10 2) (by norm_num)

end S3test
